import Mathlib

/-!
# Verification of the ER-diagram builder (`hello.py`)

Shallow embedding of the `Entity` class and the `ERGraph` deferred-edge
engine.  Entities are mutable Python objects; we model object identity by
a natural-number id indexing into a heap (`List Entity`), and the graph
registry state (`Sys`) carries that heap together with the registered
entity set, the materialized-edge set, the pending-edge map and the trace
of emissions made to the external rendering collaborator (graphviz).
-/

/-- Python `str.lower` restricted to the ASCII case handled by `Char.toLower`. -/
def pyLower (s : String) : String := String.mk (s.data.map Char.toLower)

/-- Python `str.capitalize`: first character upper-cased, the rest lower-cased. -/
def pyCapitalize (s : String) : String :=
  match s.data with
  | [] => ""
  | c :: cs => String.mk (Char.toUpper c :: cs.map Char.toLower)

/-- State of one `Entity` object (`hello.py` lines 29-42): `_tablename`,
`_fields`, the lazily cached `_html`, and `_edges`, the pre-declared
outgoing relationships `(self, ent, self_port)`.  Entity references are
heap ids (`Nat`), so a stored edge is `(selfId, entId, self_port)`. -/
structure Entity where
  tablename : String
  fieldsRaw : List String
  html : Option String
  edges : List (Nat × Nat × Option String)
deriving Repr, DecidableEq

/-- Embeds `Entity.__init__` (lines 29-42).  `fields` is `None` or a list;
Python's `if fields else []` treats both `None` and `[]` as empty.  Field
names are lower-cased.  NOTE: line 39, `self.fields.insert(0, 'id')`,
calls the `fields` property, which returns the fresh copy
`self._fields[:]`; the insertion mutates that copy and is discarded, so
`_fields` is left exactly as supplied.  The embedding reproduces that
net effect. -/
def mkEntity (tablename : String) (fields : Option (List String)) : Entity :=
  let fs := match fields with
    | none => []
    | some l => if l.isEmpty then [] else l.map pyLower
  { tablename := tablename, fieldsRaw := fs, html := none, edges := [] }

/-- The `fields` property (lines 83-85): returns `self._fields[:]`, a copy;
for an immutable Lean list the copy is the list itself. -/
def Entity.fields (e : Entity) : List String := e.fieldsRaw

/-- The `port` branch of `__getattribute__` (lines 102-103): the anchor for
the whole entity is its table name. -/
def Entity.port (e : Entity) : String := e.tablename

/-- The `port_<field>` branch of `__getattribute__` (lines 99-101):
`some` anchor string when the name is one of the entity's fields, `none`
models the `AttributeError` raised by the fall-through lookup of a
nonexistent `port_...` attribute. -/
def Entity.portField (e : Entity) (f : String) : Option String :=
  if f ∈ e.fields then some (e.tablename ++ ":" ++ f) else none

/-- Attribute string built by `_get_header`'s loop over `attr_map`
(lines 46-53), with the class constants substituted. -/
def headerAttrs : String := "bgcolor=\"#cfcfcf\" width=\"72\" cellpadding=\"5\" "

/-- Embeds `_get_header` (lines 44-54): `HEADER_TPLT` instantiated with the
attributes and the capitalized table name. -/
def Entity.getHeader (e : Entity) : String :=
  "\t<tr><td " ++ headerAttrs ++ ">" ++ pyCapitalize e.tablename ++ "</td></tr>"

/-- Attribute string built by `_get_row`'s loop (lines 57-62). -/
def rowAttrs : String := "align=\"left\" "

/-- Embeds `_get_row` (lines 56-63): `ROW_TPLT` instantiated for one field. -/
def Entity.getRow (field : String) : String :=
  "\t<tr><td " ++ rowAttrs ++ " port=\"" ++ field ++ "\">  " ++ field ++ "</td></tr>"

/-- Embeds `_get_table` (lines 65-67): rows joined by newlines with an empty
first and last element, wrapped in `TABLE_TPLT`. -/
def getTable (hdr : String) (rows : List String) : String :=
  "<table border=\"1\" cellborder=\"0\" cellspacing=\"0\" cellpadding=\"2\">"
    ++ String.intercalate "\n" ([""] ++ [hdr] ++ rows ++ [""]) ++ "</table>"

/-- Embeds `_update_html` (lines 69-74): build the table markup from the
current field list and store it in `_html`.  The `assert self.fields is
not None` on line 70 always holds (the constructor stores a list). -/
def Entity.updateHtml (e : Entity) : String × Entity :=
  let hdr := e.getHeader
  let rows := e.fields.map Entity.getRow
  let html := getTable hdr rows
  (html, { e with html := some html })

/-- Embeds the `label` property (lines 91-93):
`'<' + (self._html or self._update_html()) + '>'`.  Python's `or` takes
the right operand when `_html` is `None` *or* the empty string, so the
embedding recomputes in both of those cases; otherwise the cached value is
used unchanged.  Returns the label together with the (possibly updated)
entity. -/
def Entity.label (e : Entity) : String × Entity :=
  match e.html with
  | some h =>
    if h = "" then
      let (h2, e2) := e.updateHtml
      ("<" ++ h2 ++ ">", e2)
    else ("<" ++ h ++ ">", e)
  | none =>
    let (h2, e2) := e.updateHtml
    ("<" ++ h2 ++ ">", e2)

/-- Embeds `edge_to` (lines 76-77): append `(self, ent, self_port)` to the
entity's own pre-declared relationship list.  `selfId` is the id of the
entity itself. -/
def Entity.edge_to (e : Entity) (selfId entId : Nat) (self_port : Option String) : Entity :=
  { e with edges := e.edges ++ [(selfId, entId, self_port)] }

/-- Events emitted to the external rendering collaborator: the two
`graphviz.Digraph` primitives used by the core (`super().node(...)` on
line 130 and `graphviz.Digraph.edge(...)` on line 171). -/
inductive Event where
  | node (name : String) (lbl : String)
  | edge (src : String) (dst : String)
deriving Repr, DecidableEq

/-- Python exceptions surfaced by the embedded operations: the
`AttributeError` from a failed `port_<field>` lookup (line 163 via lines
99-104) and the `AssertionError` of `edge`'s preconditions (lines
145-146). -/
inductive Err where
  | attributeError (name : String)
  | assertionError
deriving Repr, DecidableEq

/-- State of one `ERGraph` (lines 116-122) together with the heap of
entity objects and the trace of events emitted so far:
`entities` is the registered-entity set, `linked_edges` the
materialized-edge set of resolved anchor pairs, `promised_edges` the
pending map from a missing entity to the ordered deferred actions blocked
on it.  A deferred closure (lines 170-172) only captures the two resolved
anchor strings, so it is stored as that pair. -/
structure Sys where
  heap : List Entity
  entities : List Nat
  linked_edges : List (String × String)
  promised_edges : List (Nat × List (String × String))
  trace : List Event
deriving Repr, DecidableEq

/-- Dereference an entity id.  Scenario states only use valid ids; the
default is never reached in any theorem below. -/
def heapGet (s : Sys) (i : Nat) : Entity := (s.heap[i]?).getD (mkEntity "" none)

/-- Python `set.add`: insert if absent (membership is all that matters). -/
def insertSet {α : Type} [DecidableEq α] (a : α) (l : List α) : List α :=
  if a ∈ l then l else l ++ [a]

/-- The `defaultdict` append `self._promised_edges[k].append(a)`
(line 176/178): extend the list at key `k`, creating the key if absent. -/
def pushPromise (p : List (Nat × List (String × String))) (k : Nat)
    (a : String × String) : List (Nat × List (String × String)) :=
  match p with
  | [] => [(k, [a])]
  | (k2, l) :: rest =>
    if k2 = k then (k2, l ++ [a]) :: rest else (k2, l) :: pushPromise rest k a

/-- The `dict.pop(k, [])` on line 132: the list stored at `k` (or `[]`)
together with the map with that entry removed entirely. -/
def popPromise (p : List (Nat × List (String × String))) (k : Nat) :
    List (String × String) × List (Nat × List (String × String)) :=
  match p with
  | [] => ([], [])
  | (k2, l) :: rest =>
    if k2 = k then (l, rest)
    else
      let r := popPromise rest k
      (r.1, (k2, l) :: r.2)

/-- Executing one deferred edge-creation closure (`promised_edge`, lines
170-172): emit the edge to the collaborator, then record the anchor pair
in the materialized-edge set.  The closure re-checks nothing. -/
def execPromise (s : Sys) (a : String × String) : Sys :=
  { s with trace := s.trace ++ [Event.edge a.1 a.2],
           linked_edges := insertSet (a.1, a.2) s.linked_edges }

/-- Resolution of the source anchor on line 163:
`getattr(src_ent, 'port_'+src_port) if src_port else src_ent.port`.
Python truthiness: `None` and `""` both select the whole-entity anchor. -/
def resolveSrc (e : Entity) (src_port : Option String) : Option String :=
  match src_port with
  | some p => if p = "" then some e.port else e.portField p
  | none => some e.port

/-- Embeds `ERGraph._add_edge` (lines 149-180).  Returns the state at
termination and the exception, if one was raised.  The anchor resolution
happens first (so an unknown field aborts before any mutation); then the
duplicate check against `_linked_edges`; then first-missing-endpoint
queuing: an unregistered source wins (the destination is not inspected),
else an unregistered destination, else immediate execution. -/
def ERGraph.add_edge (s : Sys) (srcId dstId : Nat) (src_port : Option String) :
    Sys × Option Err :=
  let src_ent := heapGet s srcId
  let dst_ent := heapGet s dstId
  match resolveSrc src_ent src_port with
  | none => (s, some (Err.attributeError ("port_" ++ src_port.getD "")))
  | some src =>
    let dst := dst_ent.port
    if (src, dst) ∈ s.linked_edges then (s, none)
    else if srcId ∉ s.entities then
      ({ s with promised_edges := pushPromise s.promised_edges srcId (src, dst) }, none)
    else if dstId ∉ s.entities then
      ({ s with promised_edges := pushPromise s.promised_edges dstId (src, dst) }, none)
    else (execPromise s (src, dst), none)

/-- Embeds `ERGraph.edge` (lines 136-147): assert both entities are
already registered, then delegate to `_add_edge`.  A failed assert raises
before anything is touched. -/
def ERGraph.edge (s : Sys) (srcId dstId : Nat) (src_port : Option String) :
    Sys × Option Err :=
  if srcId ∉ s.entities then (s, some Err.assertionError)
  else if dstId ∉ s.entities then (s, some Err.assertionError)
  else ERGraph.add_edge s srcId dstId src_port

/-- The `for edge in ent.edges: self._add_edge(*edge)` loop of `node`
(lines 133-134): run each pre-declared relationship through `_add_edge`
in order; an exception aborts the rest of the loop. -/
def runEdges (s : Sys) : List (Nat × Nat × Option String) → Sys × Option Err
  | [] => (s, none)
  | e :: rest =>
    match ERGraph.add_edge s e.1 e.2.1 e.2.2 with
    | (s2, none) => runEdges s2 rest
    | (s2, some err) => (s2, some err)

/-- Embeds `ERGraph.node` (lines 128-134), registration of entity `i`:
emit the visual node (evaluating `ent.label` caches the entity's html, so
the heap is updated), add the entity to the registered set, pop and run
this entity's pending closures in order, then run the entity's own
pre-declared relationships through `_add_edge`.  The
`assert isinstance(ent, Entity)` on line 129 is enforced by typing. -/
def ERGraph.node (s : Sys) (i : Nat) : Sys × Option Err :=
  let ent := heapGet s i
  let lblres := ent.label
  let s1 := { s with heap := s.heap.set i lblres.2,
                     trace := s.trace ++ [Event.node ent.tablename lblres.1] }
  let s2 := { s1 with entities := insertSet i s1.entities }
  let flushed := popPromise s2.promised_edges i
  let s3 := flushed.1.foldl execPromise { s2 with promised_edges := flushed.2 }
  runEdges s3 lblres.2.edges

/-- Calling `ent.edge_to(target, port)` on the heap-resident entity `i`
(entity-object mutation, not a graph method). -/
def sysEdgeTo (s : Sys) (i target : Nat) (p : Option String) : Sys :=
  { s with heap := s.heap.set i ((heapGet s i).edge_to i target p) }

/-- The driver operations a caller can perform against one graph. -/
inductive Op where
  | node (i : Nat)
  | edge (srcId dstId : Nat) (p : Option String)
  | edgeTo (i target : Nat) (p : Option String)
deriving Repr, DecidableEq

/-- Apply one operation, returning the state at termination and the
exception if one was raised. -/
def applyOp (s : Sys) : Op → Sys × Option Err
  | Op.node i => ERGraph.node s i
  | Op.edge a b p => ERGraph.edge s a b p
  | Op.edgeTo i t p => (sysEdgeTo s i t p, none)

/-- Run a whole operation sequence; models a driver that catches any
exception and keeps going (for exception-free runs this is just
sequential composition). -/
def runOps (s : Sys) : List Op → Sys
  | [] => s
  | op :: rest => runOps (applyOp s op).1 rest

/-- A fresh graph over a given entity heap: `ERGraph.__init__`
(lines 116-126) with an empty `nodes` list. -/
def initSys (h : List Entity) : Sys :=
  { heap := h, entities := [], linked_edges := [], promised_edges := [], trace := [] }

theorem getTable_ne_empty (hdr : String) (rows : List String) : getTable hdr rows ≠ "" := by
  intro h
  have h2 := congrArg String.length h
  rw [getTable, String.length_append, String.length_append] at h2
  have hc : 0 < String.length
      "<table border=\"1\" cellborder=\"0\" cellspacing=\"0\" cellpadding=\"2\">" := by
    decide
  simp only [String.length_empty] at h2
  omega

theorem label_edges (e : Entity) : (Entity.label e).2.edges = e.edges := by
  unfold Entity.label Entity.updateHtml
  cases e.html with
  | none => rfl
  | some h =>
    by_cases hh : h = "" <;> simp [hh]

theorem label_on_cached (e : Entity) (h : String) (hh : e.html = some h) (hne : h ≠ "") :
    Entity.label e = ("<" ++ h ++ ">", e) := by
  unfold Entity.label
  rw [hh]
  simp [hne]

theorem label_caches_nonempty (e : Entity) :
    ∃ h, (Entity.label e).1 = "<" ++ h ++ ">" ∧ (Entity.label e).2.html = some h ∧ h ≠ "" := by
  unfold Entity.label Entity.updateHtml
  cases hh : e.html with
  | none =>
    exact ⟨getTable e.getHeader (e.fields.map Entity.getRow), rfl, rfl, getTable_ne_empty _ _⟩
  | some h =>
    by_cases hne : h = ""
    · subst hne
      exact ⟨getTable e.getHeader (e.fields.map Entity.getRow), by simp, by simp,
        getTable_ne_empty _ _⟩
    · exact ⟨h, by simp [hne], by simp [hne, hh], hne⟩

/-- C9: for every entity the label is computed once and cached on first
access: a second call to `label` returns the identical value, and even if
the field list is overwritten between the calls the second result still
reflects the field list as of the first call. -/
theorem label_cached_and_field_mutation_invisible (e : Entity) (fs : List String) :
    (Entity.label (Entity.label e).2).1 = (Entity.label e).1 ∧
    (Entity.label { (Entity.label e).2 with fieldsRaw := fs }).1 = (Entity.label e).1 := by
  obtain ⟨h, h1, h2, h3⟩ := label_caches_nonempty e
  constructor
  · rw [label_on_cached (Entity.label e).2 h h2 h3, h1]
  · have hm : ({ (Entity.label e).2 with fieldsRaw := fs } : Entity).html = some h := h2
    rw [label_on_cached _ h hm h3, h1]

theorem mem_insertSet_self {α : Type} [DecidableEq α] (a : α) (l : List α) :
    a ∈ insertSet a l := by
  unfold insertSet
  split
  · assumption
  · simp

theorem execPromise_trace (s : Sys) (x : String × String) :
    (execPromise s x).trace = s.trace ++ [Event.edge x.1 x.2] := rfl

/-- C3: with both endpoints registered, two declarations that resolve to
the same anchor pair emit exactly one edge: the first call emits it (and
records the pair), the second call is a silent no-op returning the state
unchanged, whatever entity objects or field arguments the second
declaration used. -/
theorem edge_same_pair_emitted_once (s : Sys) (a b a2 b2 : Nat) (p p2 : Option String)
    (src dst : String)
    (ha : a ∈ s.entities) (hb : b ∈ s.entities) (ha2 : a2 ∈ s.entities) (hb2 : b2 ∈ s.entities)
    (hsrc : resolveSrc (heapGet s a) p = some src)
    (hdst : (heapGet s b).port = dst)
    (hsrc2 : resolveSrc (heapGet s a2) p2 = some src)
    (hdst2 : (heapGet s b2).port = dst)
    (hnew : (src, dst) ∉ s.linked_edges) :
    ERGraph.edge s a b p = (execPromise s (src, dst), none) ∧
    (execPromise s (src, dst)).trace = s.trace ++ [Event.edge src dst] ∧
    ERGraph.edge (execPromise s (src, dst)) a2 b2 p2 = (execPromise s (src, dst), none) := by
  refine ⟨?_, rfl, ?_⟩
  · unfold ERGraph.edge ERGraph.add_edge
    simp [ha, hb, hsrc, hdst, hnew]
  · unfold ERGraph.edge ERGraph.add_edge
    have ha2' : a2 ∈ (execPromise s (src, dst)).entities := ha2
    have hb2' : b2 ∈ (execPromise s (src, dst)).entities := hb2
    have hsrc2' : resolveSrc (heapGet (execPromise s (src, dst)) a2) p2 = some src := hsrc2
    have hdst2' : (heapGet (execPromise s (src, dst)) b2).port = dst := hdst2
    have hmem : (src, dst) ∈ (execPromise s (src, dst)).linked_edges :=
      mem_insertSet_self (src, dst) s.linked_edges
    simp [ha2', hb2', hsrc2', hdst2', hmem]

/-- Concrete two-entity graph with both entities registered. -/
def regSys2 : Sys :=
  { heap := [mkEntity "a" none, mkEntity "b" none], entities := [0, 1],
    linked_edges := [], promised_edges := [], trace := [] }

/-- Witness for C3 on a concrete registered two-entity graph. -/
theorem edge_same_pair_emitted_once_witness :
    ERGraph.edge regSys2 0 1 none = (execPromise regSys2 ("a", "b"), none) ∧
    (execPromise regSys2 ("a", "b")).trace = regSys2.trace ++ [Event.edge "a" "b"] ∧
    ERGraph.edge (execPromise regSys2 ("a", "b")) 0 1 none
      = (execPromise regSys2 ("a", "b"), none) :=
  edge_same_pair_emitted_once regSys2 0 1 0 1 none none "a" "b"
    (by decide) (by decide) (by decide) (by decide)
    (by decide) (by decide) (by decide) (by decide) (by decide)

/-- C7: the direct `edge` API fails with an `AssertionError` whenever
either endpoint is not registered, and the whole state (entity set,
materialized edges, pending map, heap, trace) is returned untouched. -/
theorem edge_unregistered_endpoint_fails (s : Sys) (a b : Nat) (p : Option String)
    (h : a ∉ s.entities ∨ b ∉ s.entities) :
    ERGraph.edge s a b p = (s, some Err.assertionError) := by
  unfold ERGraph.edge
  rcases h with h | h
  · simp [h]
  · by_cases ha : a ∈ s.entities
    · simp [ha, h]
    · simp [ha]

/-- Witness for C7: calling `edge` on a fresh graph with no registrations. -/
theorem edge_unregistered_endpoint_fails_witness :
    ERGraph.edge (initSys [mkEntity "a" none, mkEntity "b" none]) 0 1 none
      = (initSys [mkEntity "a" none, mkEntity "b" none], some Err.assertionError) :=
  edge_unregistered_endpoint_fails (initSys [mkEntity "a" none, mkEntity "b" none]) 0 1 none
    (Or.inl (by decide))

/-- C6: declaring an edge anchored at a name that is not one of the source
entity's fields raises the distinct `AttributeError` for the missing
`port_<name>` attribute — both on the internal `_add_edge` path and
through the public `edge` API with registered endpoints — and the state is
returned completely unchanged: nothing emitted, no pending action, no
materialized edge, no registration.  (An empty string is not a field
anchor: Python's truthiness test on line 163 treats it as "no field
given", hence the `p ≠ ""` hypothesis.) -/
theorem unknown_field_edge_fails (s : Sys) (a b : Nat) (p : String)
    (hp : p ≠ "") (hf : p ∉ (heapGet s a).fields) :
    ERGraph.add_edge s a b (some p) = (s, some (Err.attributeError ("port_" ++ p))) ∧
    (a ∈ s.entities → b ∈ s.entities →
      ERGraph.edge s a b (some p) = (s, some (Err.attributeError ("port_" ++ p)))) := by
  have hadd : ERGraph.add_edge s a b (some p)
      = (s, some (Err.attributeError ("port_" ++ p))) := by
    unfold ERGraph.add_edge resolveSrc Entity.portField
    simp [hp, hf]
  refine ⟨hadd, fun ha hb => ?_⟩
  unfold ERGraph.edge
  simp [ha, hb, hadd]

/-- Witness for C6: field `nope` is not on entity `a`. -/
theorem unknown_field_edge_fails_witness :
    ERGraph.add_edge regSys2 0 1 (some "nope")
      = (regSys2, some (Err.attributeError "port_nope")) ∧
    (0 ∈ regSys2.entities → 1 ∈ regSys2.entities →
      ERGraph.edge regSys2 0 1 (some "nope")
        = (regSys2, some (Err.attributeError "port_nope"))) :=
  unknown_field_edge_fails regSys2 0 1 "nope" (by decide) (by decide)

/-- C2: the internal edge-creation path after anchor resolution and the
duplicate check: an unregistered source wins — the action is queued under
the source's pending list with no hypothesis at all about the
destination's status; otherwise an unregistered destination queues under
the destination; otherwise the action executes immediately. -/
theorem add_edge_first_missing_endpoint (s : Sys) (a b : Nat) (p : Option String)
    (src : String)
    (hsrc : resolveSrc (heapGet s a) p = some src)
    (hnew : (src, (heapGet s b).port) ∉ s.linked_edges) :
    (a ∉ s.entities →
      ERGraph.add_edge s a b p =
        ({ s with promised_edges :=
            pushPromise s.promised_edges a (src, (heapGet s b).port) }, none)) ∧
    (a ∈ s.entities → b ∉ s.entities →
      ERGraph.add_edge s a b p =
        ({ s with promised_edges :=
            pushPromise s.promised_edges b (src, (heapGet s b).port) }, none)) ∧
    (a ∈ s.entities → b ∈ s.entities →
      ERGraph.add_edge s a b p = (execPromise s (src, (heapGet s b).port), none)) := by
  unfold ERGraph.add_edge
  refine ⟨fun h1 => ?_, fun h1 h2 => ?_, fun h1 h2 => ?_⟩
  · simp [hsrc, hnew, h1]
  · simp [hsrc, hnew, h1, h2]
  · simp [hsrc, hnew, h1, h2]

/-- Witness for C2, first-missing-endpoint branch: source `0` unregistered
(destination status never consulted). -/
theorem add_edge_first_missing_endpoint_witness :
    ERGraph.add_edge (initSys [mkEntity "a" none, mkEntity "b" none]) 0 1 none =
      ({ initSys [mkEntity "a" none, mkEntity "b" none] with
          promised_edges :=
            pushPromise (initSys [mkEntity "a" none, mkEntity "b" none]).promised_edges 0
              ("a", (heapGet (initSys [mkEntity "a" none, mkEntity "b" none]) 1).port) },
        none) :=
  (add_edge_first_missing_endpoint (initSys [mkEntity "a" none, mkEntity "b" none]) 0 1 none
    "a" (by decide) (by decide)).1 (by decide)

/-- Modelled from the spec, step 2 of `registerEntity`: emit the entity's
visual node (name and label) to the rendering collaborator. -/
def emitNodeStep (s : Sys) (i : Nat) : Sys :=
  let ent := heapGet s i
  let lblres := ent.label
  { s with heap := s.heap.set i lblres.2,
           trace := s.trace ++ [Event.node ent.tablename lblres.1] }

/-- Modelled from the spec, step 3 of `registerEntity`: mark the entity
registered. -/
def markRegisteredStep (s : Sys) (i : Nat) : Sys :=
  { s with entities := insertSet i s.entities }

/-- Modelled from the spec, step 4 of `registerEntity`: execute, in
original declaration order, every deferred action queued under this
entity, and remove that queue entry entirely. -/
def flushStep (s : Sys) (i : Nat) : Sys :=
  let flushed := popPromise s.promised_edges i
  flushed.1.foldl execPromise { s with promised_edges := flushed.2 }

/-- Modelled from the spec, step 5 of `registerEntity`: run the entity's
own pre-declared outgoing relationships through the edge-creation path,
one at a time, in declaration order. -/
def processOwnStep (s : Sys) (i : Nat) : Sys × Option Err :=
  runEdges s (heapGet s i).edges

/-- Modelled from the spec: `registerEntity` as the ordered composition of
its four effectful steps (emit node, mark registered, flush pending,
process own relationships). -/
def registerEntitySpec (s : Sys) (i : Nat) : Sys × Option Err :=
  processOwnStep (flushStep (markRegisteredStep (emitNodeStep s i) i) i) i

theorem foldl_execPromise_heap (acts : List (String × String)) :
    ∀ s : Sys, (acts.foldl execPromise s).heap = s.heap := by
  induction acts with
  | nil => intro s; rfl
  | cons a rest ih => intro s; rw [List.foldl_cons, ih]; rfl

theorem heapGet_set_edges (l : List Entity) (i : Nat) (x : Entity)
    (hx : x.edges = ((l[i]?).getD (mkEntity "" none)).edges) :
    (((l.set i x)[i]?).getD (mkEntity "" none)).edges = x.edges := by
  by_cases h : i < l.length
  · rw [List.getElem?_set_self h]
    rfl
  · rw [List.set_eq_of_length_le (Nat.le_of_not_lt h)]
    exact hx.symm

/-- C4: `node` performs exactly the spec's ordered steps: emit the visual
node, mark the entity registered, flush this entity's deferred actions in
order (removing the queue entry), then process the entity's own
pre-declared relationships through the internal edge-creation path. -/
theorem node_eq_registerEntitySpec (s : Sys) (i : Nat) :
    ERGraph.node s i = registerEntitySpec s i := by
  unfold ERGraph.node registerEntitySpec processOwnStep flushStep markRegisteredStep emitNodeStep
  simp only
  congr 1
  unfold heapGet
  rw [foldl_execPromise_heap, heapGet_set_edges]
  exact label_edges _

theorem subset_insertSet {α : Type} [DecidableEq α] (a : α) (l : List α) :
    l ⊆ insertSet a l := by
  unfold insertSet
  split
  · exact fun _ hx => hx
  · exact List.subset_append_left l [a]

/-- Growth of the registered-entity set and the materialized-edge set
from state `s` to state `t`. -/
def Mono (s t : Sys) : Prop :=
  s.entities ⊆ t.entities ∧ s.linked_edges ⊆ t.linked_edges

theorem mono_refl (s : Sys) : Mono s s := ⟨fun _ h => h, fun _ h => h⟩

theorem mono_trans {s t u : Sys} (h1 : Mono s t) (h2 : Mono t u) : Mono s u :=
  ⟨fun _ hx => h2.1 (h1.1 hx), fun _ hx => h2.2 (h1.2 hx)⟩

theorem mono_execPromise (s : Sys) (a : String × String) : Mono s (execPromise s a) :=
  ⟨fun _ h => h, subset_insertSet _ _⟩

theorem mono_foldl_execPromise (acts : List (String × String)) :
    ∀ s : Sys, Mono s (acts.foldl execPromise s) := by
  induction acts with
  | nil => exact fun s => mono_refl s
  | cons a rest ih =>
    intro s
    rw [List.foldl_cons]
    exact mono_trans (mono_execPromise s a) (ih _)

theorem mono_add_edge (s : Sys) (a b : Nat) (p : Option String) :
    Mono s (ERGraph.add_edge s a b p).1 := by
  unfold ERGraph.add_edge
  simp only
  split
  · exact mono_refl s
  · split
    · exact mono_refl s
    · split
      · exact ⟨fun _ h => h, fun _ h => h⟩
      · split
        · exact ⟨fun _ h => h, fun _ h => h⟩
        · exact mono_execPromise s _

theorem mono_runEdges (es : List (Nat × Nat × Option String)) :
    ∀ s : Sys, Mono s (runEdges s es).1 := by
  induction es with
  | nil => exact fun s => mono_refl s
  | cons e rest ih =>
    intro s
    unfold runEdges
    cases hae : ERGraph.add_edge s e.1 e.2.1 e.2.2 with
    | mk s2 err =>
      have h1 : Mono s s2 := by
        have h2 := mono_add_edge s e.1 e.2.1 e.2.2
        rw [hae] at h2
        exact h2
      cases err with
      | none => exact mono_trans h1 (ih s2)
      | some e2 => exact h1

theorem mono_node (s : Sys) (i : Nat) : Mono s (ERGraph.node s i).1 := by
  unfold ERGraph.node
  simp only
  refine mono_trans ?_ (mono_runEdges _ _)
  refine mono_trans ?_ (mono_foldl_execPromise _ _)
  exact ⟨subset_insertSet i s.entities, fun _ h => h⟩

theorem mono_edge (s : Sys) (a b : Nat) (p : Option String) :
    Mono s (ERGraph.edge s a b p).1 := by
  unfold ERGraph.edge
  split
  · exact mono_refl s
  · split
    · exact mono_refl s
    · exact mono_add_edge s a b p

theorem mono_applyOp (s : Sys) (op : Op) : Mono s (applyOp s op).1 := by
  cases op with
  | node i => exact mono_node s i
  | edge a b p => exact mono_edge s a b p
  | edgeTo i t p => exact ⟨fun _ h => h, fun _ h => h⟩

/-- C8: the registry is append-only — across any sequence of
registrations, direct edge declarations and entity-level pre-declarations
(with their internal flushes), the registered-entity set and the
materialized-edge set only ever grow; nothing is removed from either. -/
theorem registry_append_only (s : Sys) (ops : List Op) :
    s.entities ⊆ (runOps s ops).entities ∧
    s.linked_edges ⊆ (runOps s ops).linked_edges := by
  induction ops generalizing s with
  | nil => exact ⟨fun _ h => h, fun _ h => h⟩
  | cons op rest ih =>
    unfold runOps
    exact mono_trans (mono_applyOp s op) (ih _)

/-- Witness for C8 on a concrete run: entity `0`, registered at the start,
is still registered after further operations. -/
theorem registry_append_only_witness :
    0 ∈ (runOps regSys2 [Op.node 1, Op.edge 0 1 none]).entities :=
  (registry_append_only regSys2 [Op.node 1, Op.edge 0 1 none]).1 (by decide)

/-- C5 (code bug): an entity constructed without an explicit `'id'` field
does NOT get one: line 39's `self.fields.insert(0, 'id')` mutates the
fresh copy returned by the `fields` property, so `_fields` keeps exactly
the supplied names (and stays empty when none are supplied), contradicting
the documented invariant that the identifier field is always present and
first. -/
theorem id_field_never_inserted :
    (mkEntity "person" (some ["name"])).fields = ["name"] ∧
    "id" ∉ (mkEntity "person" (some ["name"])).fields ∧
    (mkEntity "empty" none).fields = [] := by
  decide

/-- Concrete scenario for C1: `student` pre-declares the same relationship
to `person` twice (two equivalent `edge_to` declarations). -/
def personE : Entity := mkEntity "person" (some ["id", "name", "age"])

/-- The `student` entity of the C1 scenario. -/
def studentE : Entity := mkEntity "student" (some ["id", "school", "person_id"])

/-- Fresh graph over the C1 scenario heap (`person` = 0, `student` = 1). -/
def dupSys : Sys := initSys [personE, studentE]

/-- The C1 operation sequence: declare `student --person_id--> person`
twice while neither endpoint is registered, then register `student`, then
`person`.  Both declarations pass the duplicate check while the edge is
pending, so two identical closures are queued under `person`. -/
def dupOps : List Op :=
  [Op.edgeTo 1 0 (some "person_id"), Op.edgeTo 1 0 (some "person_id"),
   Op.node 1, Op.node 0]

/-- C1 (code bug): declaring the same edge twice while it is pending makes
the graph emit it TWICE.  The duplicate check on line 166 consults
`_linked_edges`, which a deferred closure only updates when it executes;
two equivalent declarations queued while the edge is pending therefore
both pass the check, and each queued closure emits unconditionally when
flushed (lines 170-172, line 132).  This contradicts the never-more-than-
once guarantee (and the code's own comment "Duplicated edges are not
allowed"). -/
theorem duplicate_pending_edge_emitted_twice :
    ((runOps dupSys dupOps).trace.filter
        fun ev => ev = Event.edge "student:person_id" "person").length = 2 := by
  decide

/-- Concrete graph for the C10 counterexample. -/
def postRegSys : Sys := initSys [mkEntity "a" none, mkEntity "b" none]

/-- Register both entities, append a relationship to the already
registered entity `0` via `edge_to`, then call `node` on entity `0` a
second time — nothing in `node` (lines 128-134) guards against
re-registration. -/
def postRegOps : List Op := [Op.node 0, Op.node 1, Op.edgeTo 0 1 none, Op.node 0]

/-- C10 counterexample: a relationship appended via `edge_to` after its
entity was already registered IS emitted by the graph — re-registering the
entity re-reads the relationship list (line 133) and emits the edge, so
"never emitted; no later operation re-reads the list" is false as
stated. -/
theorem post_registration_edge_to_emitted :
    ((runOps postRegSys postRegOps).trace.filter
        fun ev => ev = Event.edge "a" "b").length = 1 := by
  decide

/-- Two registry states that agree everywhere except possibly in the
pre-declared relationship list (`_edges`) of the heap entity `i`: every
part of the graph state proper is equal, the heaps have the same length
and agree at every other id, and entity `i` itself agrees on its name,
fields and cached html. -/
structure ReadAgree (i : Nat) (s t : Sys) : Prop where
  entities_eq : t.entities = s.entities
  linked_eq : t.linked_edges = s.linked_edges
  promised_eq : t.promised_edges = s.promised_edges
  trace_eq : t.trace = s.trace
  len_eq : t.heap.length = s.heap.length
  get_eq : ∀ j, j ≠ i → t.heap[j]? = s.heap[j]?
  tablename_eq : (heapGet t i).tablename = (heapGet s i).tablename
  fieldsRaw_eq : (heapGet t i).fieldsRaw = (heapGet s i).fieldsRaw
  html_eq : (heapGet t i).html = (heapGet s i).html

theorem ReadAgree.heapGet_eq {i : Nat} {s t : Sys} (h : ReadAgree i s t)
    {j : Nat} (hj : j ≠ i) : heapGet t j = heapGet s j := by
  unfold heapGet
  rw [h.get_eq j hj]

theorem resolveSrc_congr {e1 e2 : Entity} (ht : e1.tablename = e2.tablename)
    (hf : e1.fieldsRaw = e2.fieldsRaw) (p : Option String) :
    resolveSrc e1 p = resolveSrc e2 p := by
  simp only [resolveSrc, Entity.portField, Entity.port, Entity.fields, ht, hf]

theorem ReadAgree.resolveSrc_eq {i : Nat} {s t : Sys} (h : ReadAgree i s t)
    (a : Nat) (p : Option String) :
    resolveSrc (heapGet t a) p = resolveSrc (heapGet s a) p := by
  by_cases ha : a = i
  · subst ha
    exact resolveSrc_congr h.tablename_eq h.fieldsRaw_eq p
  · rw [h.heapGet_eq ha]

theorem ReadAgree.port_eq {i : Nat} {s t : Sys} (h : ReadAgree i s t) (b : Nat) :
    (heapGet t b).port = (heapGet s b).port := by
  by_cases hb : b = i
  · subst hb
    exact h.tablename_eq
  · rw [h.heapGet_eq hb]

theorem ReadAgree.execPromise_ra {i : Nat} {s t : Sys} (h : ReadAgree i s t)
    (a : String × String) : ReadAgree i (execPromise s a) (execPromise t a) where
  entities_eq := h.entities_eq
  linked_eq := congrArg (insertSet (a.1, a.2)) h.linked_eq
  promised_eq := h.promised_eq
  trace_eq := congrArg (fun tr => tr ++ [Event.edge a.1 a.2]) h.trace_eq
  len_eq := h.len_eq
  get_eq := h.get_eq
  tablename_eq := h.tablename_eq
  fieldsRaw_eq := h.fieldsRaw_eq
  html_eq := h.html_eq

theorem ReadAgree.foldl_execPromise_ra {i : Nat} (acts : List (String × String)) :
    ∀ {s t : Sys}, ReadAgree i s t →
      ReadAgree i (acts.foldl execPromise s) (acts.foldl execPromise t) := by
  induction acts with
  | nil => exact fun h => h
  | cons a rest ih =>
    intro s t h
    rw [List.foldl_cons, List.foldl_cons]
    exact ih (h.execPromise_ra a)

theorem ReadAgree.add_edge_ra {i : Nat} {s t : Sys} (h : ReadAgree i s t)
    (a b : Nat) (p : Option String) :
    ReadAgree i (ERGraph.add_edge s a b p).1 (ERGraph.add_edge t a b p).1 ∧
    (ERGraph.add_edge t a b p).2 = (ERGraph.add_edge s a b p).2 := by
  unfold ERGraph.add_edge
  simp only [h.resolveSrc_eq a p, h.port_eq b, h.linked_eq, h.entities_eq, h.promised_eq,
    h.trace_eq]
  cases hres : resolveSrc (heapGet s a) p with
  | none => exact ⟨h, by trivial⟩
  | some src =>
    by_cases hdup : (src, (heapGet s b).port) ∈ s.linked_edges
    · simp only [if_pos hdup]
      exact ⟨h, by trivial⟩
    · simp only [if_neg hdup]
      by_cases ha : a ∈ s.entities
      · simp only [ha, not_true_eq_false, if_false]
        by_cases hb : b ∈ s.entities
        · simp only [hb, not_true_eq_false, if_false]
          exact ⟨h.execPromise_ra _, by trivial⟩
        · simp only [hb, not_false_eq_true, if_true]
          exact ⟨⟨rfl, rfl, rfl, rfl, h.len_eq, h.get_eq, h.tablename_eq, h.fieldsRaw_eq,
            h.html_eq⟩, by trivial⟩
      · simp only [ha, not_false_eq_true, if_true]
        exact ⟨⟨rfl, rfl, rfl, rfl, h.len_eq, h.get_eq, h.tablename_eq, h.fieldsRaw_eq,
          h.html_eq⟩, by trivial⟩

theorem ReadAgree.runEdges_ra {i : Nat} (es : List (Nat × Nat × Option String)) :
    ∀ {s t : Sys}, ReadAgree i s t →
      ReadAgree i (runEdges s es).1 (runEdges t es).1 := by
  induction es with
  | nil => exact fun h => h
  | cons e rest ih =>
    intro s t h
    unfold runEdges
    obtain ⟨hra, herr⟩ := h.add_edge_ra e.1 e.2.1 e.2.2
    cases hs : ERGraph.add_edge s e.1 e.2.1 e.2.2 with
    | mk s2 errs =>
      cases ht : ERGraph.add_edge t e.1 e.2.1 e.2.2 with
      | mk t2 errt =>
        rw [hs, ht] at hra herr
        simp only at hra herr
        subst herr
        cases errt with
        | none => exact ih hra
        | some e2 => exact hra

theorem getD_set_self (l : List Entity) (i : Nat) (x : Entity) :
    ((l.set i x)[i]?).getD (mkEntity "" none)
      = if i < l.length then x else (l[i]?).getD (mkEntity "" none) := by
  by_cases hlt : i < l.length
  · rw [List.getElem?_set_self hlt, if_pos hlt]
    rfl
  · rw [List.set_eq_of_length_le (Nat.le_of_not_lt hlt), if_neg hlt]

theorem heapGet_sysEdgeTo_self_one {γ : Type} (f : Entity → γ) (s : Sys) (i tgt : Nat)
    (p : Option String) (hpres : ∀ e, f (Entity.edge_to e i tgt p) = f e) :
    f (heapGet (sysEdgeTo s i tgt p) i) = f (heapGet s i) := by
  unfold sysEdgeTo heapGet
  simp only
  rw [getD_set_self]
  by_cases hlt : i < s.heap.length
  · rw [if_pos hlt, hpres]
  · rw [if_neg hlt]

theorem heapGet_sysEdgeTo_ne (s : Sys) (k tgt i : Nat) (p : Option String)
    (hk : k ≠ i) : heapGet (sysEdgeTo s k tgt p) i = heapGet s i := by
  unfold sysEdgeTo heapGet
  simp only
  rw [List.getElem?_set_ne hk]

theorem ReadAgree.node_ra {i : Nat} {s t : Sys} (h : ReadAgree i s t)
    (j : Nat) (hj : j ≠ i) :
    ReadAgree i (ERGraph.node s j).1 (ERGraph.node t j).1 := by
  unfold ERGraph.node
  simp only [h.heapGet_eq hj, h.promised_eq, h.trace_eq, h.entities_eq, h.linked_eq]
  refine ReadAgree.runEdges_ra _ (ReadAgree.foldl_execPromise_ra _ ?_)
  refine ⟨rfl, rfl, rfl, rfl, ?_, ?_, ?_, ?_, ?_⟩
  · simp only [List.length_set]
    exact h.len_eq
  · intro k hk
    simp only
    rw [List.getElem?_set, List.getElem?_set, h.len_eq]
    by_cases hkj : j = k
    · rw [if_pos hkj, if_pos hkj]
    · rw [if_neg hkj, if_neg hkj]
      exact h.get_eq k hk
  · unfold heapGet
    simp only
    rw [List.getElem?_set_ne hj, List.getElem?_set_ne hj]
    exact h.tablename_eq
  · unfold heapGet
    simp only
    rw [List.getElem?_set_ne hj, List.getElem?_set_ne hj]
    exact h.fieldsRaw_eq
  · unfold heapGet
    simp only
    rw [List.getElem?_set_ne hj, List.getElem?_set_ne hj]
    exact h.html_eq

theorem ReadAgree.edge_ra {i : Nat} {s t : Sys} (h : ReadAgree i s t)
    (a b : Nat) (p : Option String) :
    ReadAgree i (ERGraph.edge s a b p).1 (ERGraph.edge t a b p).1 := by
  unfold ERGraph.edge
  rw [h.entities_eq]
  by_cases ha : a ∈ s.entities
  · by_cases hb : b ∈ s.entities
    · simp only [ha, hb, not_true_eq_false, if_false]
      exact (h.add_edge_ra a b p).1
    · simp only [ha, hb, not_true_eq_false, not_false_eq_true, if_false, if_true]
      exact h
  · simp only [ha, not_false_eq_true, if_true]
    exact h

theorem ReadAgree.edgeTo_ra {i : Nat} {s t : Sys} (h : ReadAgree i s t)
    (k tgt : Nat) (p : Option String) :
    ReadAgree i (sysEdgeTo s k tgt p) (sysEdgeTo t k tgt p) := by
  by_cases hk : k = i
  · subst hk
    refine ⟨h.entities_eq, h.linked_eq, h.promised_eq, h.trace_eq, ?_, ?_, ?_, ?_, ?_⟩
    · simp only [sysEdgeTo, List.length_set]
      exact h.len_eq
    · intro j hj
      simp only [sysEdgeTo]
      rw [List.getElem?_set_ne (Ne.symm hj), List.getElem?_set_ne (Ne.symm hj)]
      exact h.get_eq j hj
    · rw [heapGet_sysEdgeTo_self_one (fun e => e.tablename) t k tgt p (fun e => rfl),
        heapGet_sysEdgeTo_self_one (fun e => e.tablename) s k tgt p (fun e => rfl)]
      exact h.tablename_eq
    · rw [heapGet_sysEdgeTo_self_one (fun e => e.fieldsRaw) t k tgt p (fun e => rfl),
        heapGet_sysEdgeTo_self_one (fun e => e.fieldsRaw) s k tgt p (fun e => rfl)]
      exact h.fieldsRaw_eq
    · rw [heapGet_sysEdgeTo_self_one (fun e => e.html) t k tgt p (fun e => rfl),
        heapGet_sysEdgeTo_self_one (fun e => e.html) s k tgt p (fun e => rfl)]
      exact h.html_eq
  · have hkk : heapGet t k = heapGet s k := h.heapGet_eq hk
    refine ⟨h.entities_eq, h.linked_eq, h.promised_eq, h.trace_eq, ?_, ?_, ?_, ?_, ?_⟩
    · simp only [sysEdgeTo, List.length_set]
      exact h.len_eq
    · intro j hj
      simp only [sysEdgeTo, hkk]
      rw [List.getElem?_set, List.getElem?_set, h.len_eq]
      by_cases hkj : k = j
      · rw [if_pos hkj, if_pos hkj]
      · rw [if_neg hkj, if_neg hkj]
        exact h.get_eq j hj
    · rw [heapGet_sysEdgeTo_ne t k tgt i p hk, heapGet_sysEdgeTo_ne s k tgt i p hk]
      exact h.tablename_eq
    · rw [heapGet_sysEdgeTo_ne t k tgt i p hk, heapGet_sysEdgeTo_ne s k tgt i p hk]
      exact h.fieldsRaw_eq
    · rw [heapGet_sysEdgeTo_ne t k tgt i p hk, heapGet_sysEdgeTo_ne s k tgt i p hk]
      exact h.html_eq

theorem ReadAgree.applyOp_ra {i : Nat} {s t : Sys} (h : ReadAgree i s t)
    (op : Op) (hop : op ≠ Op.node i) :
    ReadAgree i (applyOp s op).1 (applyOp t op).1 := by
  cases op with
  | node j =>
    have hj : j ≠ i := fun hh => hop (by rw [hh])
    exact h.node_ra j hj
  | edge a b p => exact h.edge_ra a b p
  | edgeTo k tgt p => exact h.edgeTo_ra k tgt p

theorem ReadAgree.runOps_ra {i : Nat} (ops : List Op) :
    ∀ {s t : Sys}, ReadAgree i s t → Op.node i ∉ ops →
      ReadAgree i (runOps s ops) (runOps t ops) := by
  induction ops with
  | nil => exact fun h _ => h
  | cons op rest ih =>
    intro s t h hops
    unfold runOps
    have hop : op ≠ Op.node i := fun hh => hops (by rw [hh]; exact List.mem_cons_self _ _)
    have hrest : Op.node i ∉ rest := fun hh => hops (List.mem_cons_of_mem _ hh)
    exact ih (h.applyOp_ra op hop) hrest

theorem readAgree_sysEdgeTo (s : Sys) (i tgt : Nat) (p : Option String) :
    ReadAgree i s (sysEdgeTo s i tgt p) := by
  refine ⟨rfl, rfl, rfl, rfl, ?_, ?_, ?_, ?_, ?_⟩
  · simp only [sysEdgeTo, List.length_set]
  · intro j hj
    simp only [sysEdgeTo]
    rw [List.getElem?_set_ne (Ne.symm hj)]
  · exact heapGet_sysEdgeTo_self_one (fun e => e.tablename) s i tgt p (fun e => rfl)
  · exact heapGet_sysEdgeTo_self_one (fun e => e.fieldsRaw) s i tgt p (fun e => rfl)
  · exact heapGet_sysEdgeTo_self_one (fun e => e.html) s i tgt p (fun e => rfl)

/-- C10 (amended): a relationship appended via `edge_to` after its entity
was registered is invisible to the graph — and hence never emitted — for
as long as that entity is not registered again: any operation sequence
that does not contain a re-registration of entity `i` produces exactly the
same emission trace whether or not the post-registration declaration was
appended.  Only `node i` itself reads the entity's relationship list. -/
theorem post_registration_edge_to_unread (s : Sys) (i j : Nat) (p : Option String)
    (ops : List Op) (_hreg : i ∈ s.entities) (hops : Op.node i ∉ ops) :
    (runOps (sysEdgeTo s i j p) ops).trace = (runOps s ops).trace :=
  (ReadAgree.runOps_ra ops (readAgree_sysEdgeTo s i j p) hops).trace_eq

/-- Witness for the amended C10 on a concrete graph: with entity `0`
registered, appending `edge_to` and then running operations that do not
re-register `0` leaves the trace unchanged. -/
theorem post_registration_edge_to_unread_witness :
    (runOps (sysEdgeTo regSys2 0 1 none) [Op.edge 0 1 none, Op.node 1]).trace
      = (runOps regSys2 [Op.edge 0 1 none, Op.node 1]).trace :=
  post_registration_edge_to_unread regSys2 0 1 none [Op.edge 0 1 none, Op.node 1]
    (by decide) (by decide)
